import Mathlib

/-!
Verification of the affine-registration notebook `affine_reg_oasis.ipynb`
(deep-atlas repository).

The notebook builds a MONAI augmentation pipeline over paired OASIS-1 brain
volumes, defines a 3-D spatial-transformer network `AffineNet`, trains it by
supervised regression against known synthetic affine perturbations, and
benchmarks it against ANTs.

Shallow embedding conventions:
* tensors of matrix shape are `Matrix (Fin m) (Fin n) ℚ`; exact rationals
  stand for the float values computed by torch;
* `torch.linalg.solve` / `torch.linalg.inv` are embedded through a computable
  matrix inverse `minv` (equal to Mathlib's `Matrix.inv` over the field ℚ);
* the per-sample metadata dictionary (the `*_transforms` lists recorded by
  MONAI) is a `Sample` structure holding the applied-transform records;
* the randomly initialised convolutional stack `AffineNet.localization`, and
  the torch primitives `affine_grid` / `grid_sample`, are third-party code
  with random or framework-internal behaviour; value-level theorems about
  `AffineNet.forward` quantify over them as function parameters.
-/

/-- Spatial size of the resampled volumes; the notebook sets `S = 64`. -/
def S : ℕ := 64

/-- A 4×4 homogeneous affine matrix over exact rationals. -/
abbrev M4 : Type := Matrix (Fin 4) (Fin 4) ℚ

/-- A 3×4 affine matrix (the network's regression target shape). -/
abbrev M34 : Type := Matrix (Fin 3) (Fin 4) ℚ

/-- Computable matrix inverse over ℚ, `det⁻¹ • adjugate`; it embeds
`torch.linalg.inv` and agrees with Mathlib's `Matrix.inv`
(see `minv_eq_inv`). -/
def minv (A : M4) : M4 := A.det⁻¹ • A.adjugate

/-- Embedding of `torch.linalg.solve(A, B)`: the solution `A⁻¹ * B` of
`A X = B` for invertible `A`. -/
def linalg_solve (A B : M4) : M4 := minv A * B

/-- One entry of a MONAI `*_transforms` metadata list: the recorded class
name and the applied affine (`extra_info.affine`). -/
structure TransformRecord where
  klass : String
  affine : M4

/-- A single-channel S×S×S volume. -/
abbrev Vol : Type := Fin S → Fin S → Fin S → ℚ

/-- One decollated sample `d` as seen by the training loop: the concatenated
fixed/moving channels `d.fm` (channel 0 = fixed, channel 1 = moving) and the
applied-transform metadata lists for the two keys. -/
structure Sample where
  fm : Fin 2 → Vol
  fixed_transforms : List TransformRecord
  moving_transforms : List TransformRecord

/-- `[t for t in ts if t['class']=='RandAffined'][0]['extra_info']['affine']`:
the affine of the first recorded `RandAffined` record, `none` when no such
record exists (where the Python indexing would raise `IndexError`). -/
def recordedAffine (ts : List TransformRecord) : Option M4 :=
  ((ts.filter (fun t => t.klass = "RandAffined")).map (fun t => t.affine)).head?

/-- `get_perfect_transform_monai_coords(d)`: reads the recorded affines
`phi1` (fixed) and `phi2` (moving) and returns
`torch.linalg.solve(phi2, phi1)`. -/
def get_perfect_transform_monai_coords (d : Sample) : Option M4 := do
  let phi1 ← recordedAffine d.fixed_transforms
  let phi2 ← recordedAffine d.moving_transforms
  return linalg_solve phi2 phi1

/-- The constant conversion matrix `N` of the notebook:
`[[0,0,2/(S-1),0],[0,2/(S-1),0,0],[2/(S-1),0,0,0],[0,0,0,1]]`. -/
def N : M4 :=
  !![0, 0, 2/((S : ℚ) - 1), 0;
     0, 2/((S : ℚ) - 1), 0, 0;
     2/((S : ℚ) - 1), 0, 0, 0;
     0, 0, 0, 1]

/-- `get_perfect_transform_torch_coords(d)`: converts the MONAI-coords
perfect transform to torch coords via
`torch.matmul(N, torch.matmul(theta, torch.linalg.inv(N)))`. -/
def get_perfect_transform_torch_coords (d : Sample) : Option M4 :=
  (get_perfect_transform_monai_coords d).map (fun theta => N * (theta * minv N))

/-- The axis-reversal permutation matrix: swaps spatial axes 0 and 2, fixes
axis 1 and the homogeneous coordinate. -/
def revAxes : M4 :=
  Matrix.of fun i j =>
    if (i.val + j.val = 2 ∧ i.val ≠ 3 ∧ j.val ≠ 3) ∨ (i.val = 3 ∧ j.val = 3)
    then (1 : ℚ) else 0

/-- The rescaling matrix taking grid values in `[-(S-1)/2, (S-1)/2]` to
`[-1, 1]`: multiply each spatial coordinate by `2/(S-1)`. -/
def rescaleGrid : M4 :=
  Matrix.diagonal ![2/((S : ℚ) - 1), 2/((S : ℚ) - 1), 2/((S : ℚ) - 1), 1]

/-- The conversion matrix as the spec describes it: reverse the axis order,
then rescale grid values to `[-1, 1]`. -/
def N_described : M4 := rescaleGrid * revAxes

/-- The explicit inverse of `N` (entries `(S-1)/2` in the reversed pattern). -/
def Ninv : M4 :=
  !![0, 0, ((S : ℚ) - 1)/2, 0;
     0, ((S : ℚ) - 1)/2, 0, 0;
     ((S : ℚ) - 1)/2, 0, 0, 0;
     0, 0, 0, 1]

theorem minv_eq_inv (A : M4) : minv A = A⁻¹ := by
  rw [Matrix.inv_def, Ring.inverse_eq_inv']
  rfl

theorem S_cast_sub_one : ((S : ℚ) - 1) = 63 := by norm_num [S]

theorem N_mul_Ninv : N * Ninv = 1 := by
  ext i j
  fin_cases i <;> fin_cases j <;>
    simp +decide [N, Ninv, S_cast_sub_one, Matrix.mul_apply, Fin.sum_univ_succ,
      Matrix.one_apply]

theorem Ninv_mul_N : Ninv * N = 1 := by
  ext i j
  fin_cases i <;> fin_cases j <;>
    simp +decide [N, Ninv, S_cast_sub_one, Matrix.mul_apply, Fin.sum_univ_succ,
      Matrix.one_apply]

theorem N_eq_N_described : N = N_described := by
  show N = rescaleGrid * revAxes
  ext i j
  fin_cases i <;> fin_cases j <;>
    simp +decide [N, rescaleGrid, revAxes, S_cast_sub_one, Matrix.mul_apply,
      Fin.sum_univ_succ, Matrix.diagonal]

theorem N_isUnit_det : IsUnit N.det :=
  isUnit_of_mul_eq_one _ Ninv.det (by rw [← Matrix.det_mul, N_mul_Ninv, Matrix.det_one])

theorem N_inv_eq_Ninv : N⁻¹ = Ninv := Matrix.inv_eq_right_inv N_mul_Ninv

theorem one_inv_eq_one : (1 : M4)⁻¹ = 1 :=
  Matrix.inv_eq_right_inv (Matrix.one_mul 1)

theorem linalg_solve_one_one : linalg_solve 1 1 = 1 := by
  rw [linalg_solve, minv_eq_inv, one_inv_eq_one, Matrix.one_mul]

/-- C1: for every invertible transform `theta` in MONAI grid coordinates
produced for a sample, `get_perfect_transform_torch_coords` converts it to
the torch convention by the fixed conjugation `N * theta * N⁻¹`, where `N`
is exactly the constant matrix that reverses the axis order and rescales
grid values from `[-(S-1)/2, (S-1)/2]` to `[-1, 1]`. -/
theorem C1_torch_coords_is_conjugation (d : Sample) (theta : M4)
    (h : get_perfect_transform_monai_coords d = some theta)
    (hinv : IsUnit theta.det) :
    get_perfect_transform_torch_coords d
        = some (N_described * theta * N_described⁻¹)
      ∧ N = N_described ∧ N * N⁻¹ = 1 ∧ N⁻¹ * N = 1 := by
  refine ⟨?_, N_eq_N_described, ?_, ?_⟩
  · rw [get_perfect_transform_torch_coords, h, Option.map_some']
    rw [minv_eq_inv, ← N_eq_N_described, ← Matrix.mul_assoc]
  · rw [N_inv_eq_Ninv, N_mul_Ninv]
  · rw [N_inv_eq_Ninv, Ninv_mul_N]

/-- A concrete sample whose two recorded `RandAffined` affines are the
identity. -/
def sampleId : Sample :=
  { fm := fun _ _ _ _ => 0
    fixed_transforms := [⟨"RandAffined", 1⟩]
    moving_transforms := [⟨"RandAffined", 1⟩] }

theorem monai_coords_sampleId :
    get_perfect_transform_monai_coords sampleId = some 1 := by
  show some (linalg_solve 1 1) = some 1
  rw [linalg_solve_one_one]

/-- Witness for C1 at the identity sample. -/
theorem C1_witness :
    get_perfect_transform_torch_coords sampleId
        = some (N_described * 1 * N_described⁻¹)
      ∧ N = N_described ∧ N * N⁻¹ = 1 ∧ N⁻¹ * N = 1 :=
  C1_torch_coords_is_conjugation sampleId 1 monai_coords_sampleId
    (by rw [Matrix.det_one]; exact isUnit_one)

/-- C3: when the sample's fixed and moving images were perturbed by recorded
invertible affines `phi1` and `phi2`, the supervision transform computed by
`get_perfect_transform_monai_coords` is `phi2⁻¹ * phi1`, the unique solution
`X` of `phi2 * X = phi1`. -/
theorem C3_perfect_transform_solves (d : Sample) (phi1 phi2 : M4)
    (h1 : recordedAffine d.fixed_transforms = some phi1)
    (h2 : recordedAffine d.moving_transforms = some phi2)
    (hinv : IsUnit phi2.det) :
    get_perfect_transform_monai_coords d = some (phi2⁻¹ * phi1)
      ∧ phi2 * (phi2⁻¹ * phi1) = phi1
      ∧ ∀ X : M4, phi2 * X = phi1 → X = phi2⁻¹ * phi1 := by
  refine ⟨?_, ?_, ?_⟩
  · rw [get_perfect_transform_monai_coords, h1, h2]
    show some (linalg_solve phi2 phi1) = _
    rw [linalg_solve, minv_eq_inv]
  · rw [← Matrix.mul_assoc, Matrix.mul_nonsing_inv _ hinv, Matrix.one_mul]
  · intro X hX
    calc X = (phi2⁻¹ * phi2) * X := by rw [Matrix.nonsing_inv_mul _ hinv, Matrix.one_mul]
    _ = phi2⁻¹ * (phi2 * X) := by rw [Matrix.mul_assoc]
    _ = phi2⁻¹ * phi1 := by rw [hX]

/-- Witness for C3 at the identity sample. -/
theorem C3_witness :
    get_perfect_transform_monai_coords sampleId = some ((1 : M4)⁻¹ * 1)
      ∧ (1 : M4) * ((1 : M4)⁻¹ * 1) = 1
      ∧ ∀ X : M4, (1 : M4) * X = 1 → X = (1 : M4)⁻¹ * 1 :=
  C3_perfect_transform_solves sampleId 1 1 rfl rfl
    (by rw [Matrix.det_one]; exact isUnit_one)

/-- `[:, :3]` on a stacked 4×4 transform: keep the top 3 rows, giving a 3×4
matrix matching `theta`'s dimensions (the dropped last row is `0,0,0,1`). -/
def top3 (M : M4) : M34 := Matrix.of fun i j => M i.castSucc j

/-- `torch.stack([get_perfect_transform_torch_coords(d) for d in
monai.data.decollate_batch(batch)])`: the stacked per-sample perfect
transforms, defined when every sample's metadata yields one. -/
def stackPerfect {n : ℕ} (bs : Fin n → Sample) : Option (Fin n → M4) :=
  if h : ∀ b, (get_perfect_transform_torch_coords (bs b)).isSome
  then some (fun b => (get_perfect_transform_torch_coords (bs b)).get (h b))
  else none

/-- The loss of one training step:
`loss = ((theta - perfect_theta)**2).sum()` where
`perfect_theta = stackPerfect(batch)[:, :3]`; the `.sum()` ranges over the
whole `(B, 3, 4)` tensor. -/
def train_step_loss {n : ℕ} (theta : Fin n → M34) (bs : Fin n → Sample) :
    Option ℚ :=
  (stackPerfect bs).map
    (fun p => ∑ b, ∑ i, ∑ j, (theta b i j - top3 (p b) i j)^2)

theorem torch_coords_of_recorded (d : Sample) (phi1 phi2 : M4)
    (h1 : recordedAffine d.fixed_transforms = some phi1)
    (h2 : recordedAffine d.moving_transforms = some phi2) :
    get_perfect_transform_torch_coords d = some (N * (phi2⁻¹ * phi1) * N⁻¹) := by
  rw [get_perfect_transform_torch_coords, get_perfect_transform_monai_coords, h1, h2]
  show some (N * (linalg_solve phi2 phi1 * minv N)) = _
  rw [linalg_solve, minv_eq_inv, minv_eq_inv, ← Matrix.mul_assoc]

theorem stackPerfect_eq {n : ℕ} (bs : Fin n → Sample) (p : Fin n → M4)
    (h : ∀ b, get_perfect_transform_torch_coords (bs b) = some (p b)) :
    stackPerfect bs = some p := by
  have hs : ∀ b, (get_perfect_transform_torch_coords (bs b)).isSome := by
    intro b; rw [h b]; rfl
  rw [stackPerfect, dif_pos hs]
  congr 1
  funext b
  have hsome : some ((get_perfect_transform_torch_coords (bs b)).get (hs b))
      = some (p b) := by
    rw [Option.some_get, h b]
  exact Option.some.inj hsome

/-- C2: the loss minimized at every training step is the sum of squared
elementwise differences between the predicted `theta` and the known
ground-truth transform of each sample, converted to torch coordinates
(`N * phi2⁻¹ * phi1 * N⁻¹`) and truncated to its top 3 rows; moreover the
loss depends only on `theta` and the recorded synthetic transforms, never on
the image contents. -/
theorem C2_training_loss_is_supervised {n : ℕ}
    (theta : Fin n → M34) (bs : Fin n → Sample) (phi1 phi2 : Fin n → M4)
    (h1 : ∀ b, recordedAffine (bs b).fixed_transforms = some (phi1 b))
    (h2 : ∀ b, recordedAffine (bs b).moving_transforms = some (phi2 b)) :
    train_step_loss theta bs
        = some (∑ b, ∑ i, ∑ j,
            (theta b i j - top3 (N * ((phi2 b)⁻¹ * phi1 b) * N⁻¹) i j)^2)
      ∧ ∀ bs' : Fin n → Sample,
          (∀ b, (bs' b).fixed_transforms = (bs b).fixed_transforms
              ∧ (bs' b).moving_transforms = (bs b).moving_transforms) →
          train_step_loss theta bs' = train_step_loss theta bs := by
  have key : ∀ (cs : Fin n → Sample),
      (∀ b, recordedAffine (cs b).fixed_transforms = some (phi1 b)) →
      (∀ b, recordedAffine (cs b).moving_transforms = some (phi2 b)) →
      train_step_loss theta cs
        = some (∑ b, ∑ i, ∑ j,
            (theta b i j - top3 (N * ((phi2 b)⁻¹ * phi1 b) * N⁻¹) i j)^2) := by
    intro cs hc1 hc2
    have hp : ∀ b, get_perfect_transform_torch_coords (cs b)
        = some (N * ((phi2 b)⁻¹ * phi1 b) * N⁻¹) :=
      fun b => torch_coords_of_recorded (cs b) (phi1 b) (phi2 b) (hc1 b) (hc2 b)
    rw [train_step_loss, stackPerfect_eq cs _ hp, Option.map_some']
  refine ⟨key bs h1 h2, ?_⟩
  intro bs' hsame
  rw [key bs' (fun b => (hsame b).1 ▸ h1 b) (fun b => (hsame b).2 ▸ h2 b),
    key bs h1 h2]

/-- Witness for C2: a singleton batch holding the identity sample. -/
theorem C2_witness :
    train_step_loss (fun _ : Fin 1 => (0 : M34)) (fun _ => sampleId)
        = some (∑ b : Fin 1, ∑ i, ∑ j,
            ((0 : M34) i j - top3 (N * ((1 : M4)⁻¹ * 1) * N⁻¹) i j)^2)
      ∧ ∀ bs' : Fin 1 → Sample,
          (∀ b, (bs' b).fixed_transforms = sampleId.fixed_transforms
              ∧ (bs' b).moving_transforms = sampleId.moving_transforms) →
          train_step_loss (fun _ : Fin 1 => (0 : M34)) bs'
            = train_step_loss (fun _ : Fin 1 => (0 : M34)) (fun _ => sampleId) :=
  C2_training_loss_is_supervised (fun _ => 0) (fun _ => sampleId)
    (fun _ => 1) (fun _ => 1) (fun _ => rfl) (fun _ => rfl)

/-- The keyword arguments of `RandAffineD` (`rand_affine_params` in the
notebook), over an arbitrary field standing for the float scalars. -/
structure RandAffineParams (α : Type) where
  prob : α
  mode : String
  padding_mode : String
  spatial_size : ℕ × ℕ × ℕ
  cache_grid : Bool
  rotate_range : Fin 3 → α
  shear_range : Fin 6 → α
  translate_range : Fin 3 → α
  scale_range : Fin 3 → α

/-- One step of the MONAI `Compose` pipeline built in the notebook. -/
inductive TransformStep (α : Type) where
  | loadImageD (reader : String) (keys : List String)
  | transposeD (keys : List String) (indices : ℕ × ℕ × ℕ)
  | addChannelD (keys : List String)
  | toTensorD (keys : List String)
  | resizeD (spatial_size : ℕ × ℕ × ℕ) (keys : List String)
  | toDeviceD (keys : List String)
  | randAffineD (keys : List String) (params : RandAffineParams α)
  | concatItemsD (keys : List String) (name : String) (dim : ℕ)

/-- The overall scale of the affine transforms: the notebook sets `a = 0.3`. -/
def affineScale {α : Type} [Field α] : α := 0.3

/-- `rand_affine_params` of the notebook, as a function of the scalar `pi`
(`np.pi` in the source): rotations up to `a*pi/2`, no shearing, translations
up to `a*S/16`, scalings up to `a*0.2`. -/
def rand_affine_params {α : Type} [Field α] (pi : α) : RandAffineParams α :=
  { prob := 1
    mode := "bilinear"
    padding_mode := "zeros"
    spatial_size := (S, S, S)
    cache_grid := true
    rotate_range := fun _ => affineScale * pi / 2
    shear_range := fun _ => 0
    translate_range := fun _ => affineScale * (S : α) / 16
    scale_range := fun _ => affineScale * 0.2 }

/-- The `monai.transforms.Compose` pipeline of the notebook: both the
`fixed` and the `moving` key get a `RandAffineD` step with the same
parameter ranges, then the two are concatenated as `fm` along dim 0. -/
def transformPipeline {α : Type} [Field α] (pi : α) : List (TransformStep α) :=
  [ TransformStep.loadImageD "itkreader" ["fixed", "moving"]
  , TransformStep.transposeD ["fixed", "moving"] (2, 1, 0)
  , TransformStep.addChannelD ["fixed", "moving"]
  , TransformStep.toTensorD ["fixed", "moving"]
  , TransformStep.resizeD (S, S, S) ["fixed", "moving"]
  , TransformStep.toDeviceD ["fixed", "moving"]
  , TransformStep.randAffineD ["fixed"] (rand_affine_params pi)
  , TransformStep.randAffineD ["moving"] (rand_affine_params pi)
  , TransformStep.concatItemsD ["fixed", "moving"] "fm" 0 ]

/-- Modelled from MONAI's `create_shear` for 3-D: the shear factor built
from the six shear coefficients
`[[1,s0,s1,0],[s2,1,s3,0],[s4,s5,1,0],[0,0,0,1]]`. -/
def create_shear {α : Type} [Field α] (s : Fin 6 → α) : Matrix (Fin 4) (Fin 4) α :=
  !![1, s 0, s 1, 0;
     s 2, 1, s 3, 0;
     s 4, s 5, 1, 0;
     0, 0, 0, 1]

/-- C4: the synthetic perturbations are rotation + translation + scale only:
in `rand_affine_params` all six shear coefficients are fixed to zero (so the
generated shear factor is the identity matrix) while the rotation,
translation and scale ranges are nonzero, and the pipeline applies a
`RandAffineD` step with exactly these parameters to both the fixed and the
moving image. -/
theorem C4_no_shear_in_synthetic_transforms :
    (∀ i, (rand_affine_params Real.pi).shear_range i = 0)
      ∧ (∀ i, (rand_affine_params Real.pi).rotate_range i ≠ 0)
      ∧ (∀ i, (rand_affine_params Real.pi).translate_range i ≠ 0)
      ∧ (∀ i, (rand_affine_params Real.pi).scale_range i ≠ 0)
      ∧ TransformStep.randAffineD ["fixed"] (rand_affine_params Real.pi)
          ∈ transformPipeline Real.pi
      ∧ TransformStep.randAffineD ["moving"] (rand_affine_params Real.pi)
          ∈ transformPipeline Real.pi
      ∧ create_shear ((rand_affine_params Real.pi).shear_range) = 1 := by
  refine ⟨fun i => rfl, fun i => ?_, fun i => ?_, fun i => ?_, ?_, ?_, ?_⟩
  · show affineScale * Real.pi / 2 ≠ 0
    have hpi := Real.pi_pos
    rw [affineScale]
    positivity
  · show affineScale * ((S : ℕ) : ℝ) / 16 ≠ 0
    rw [affineScale, S]
    norm_num
  · show affineScale * (0.2 : ℝ) ≠ 0
    rw [affineScale]
    norm_num
  · simp [transformPipeline]
  · simp [transformPipeline]
  · ext i j
    fin_cases i <;> fin_cases j <;>
      simp +decide [create_shear, rand_affine_params, Matrix.one_apply,
        Matrix.vecHead, Matrix.vecTail]

/-- Channel widths of the localization stack (`loc_C1`, `loc_C2`, `loc_C3`). -/
def loc_C1 : ℕ := 8

def loc_C2 : ℕ := 16

def loc_C3 : ℕ := 32

/-- Output spatial size of `Conv3d(kernel_size=k)` (stride 1, no padding):
`floor((s - k)/1) + 1`. -/
def conv3dOut (k s : ℕ) : ℕ := (s - k) + 1

/-- Output spatial size of `MaxPool3d(2, stride=2)`: `floor((s - 2)/2) + 1`. -/
def maxPool2Out (s : ℕ) : ℕ := (s - 2) / 2 + 1

/-- Per-axis spatial size through `AffineNet.localization`:
`Conv3d(2→8, k=5)`, `MaxPool3d(2,2)`, `Conv3d(8→16, k=3)`, `MaxPool3d(2,2)`,
`Conv3d(16→32, k=3)` (BatchNorm3d / Dropout / PReLU preserve shape). -/
def localizationSpatial (s : ℕ) : ℕ :=
  conv3dOut 3 (maxPool2Out (conv3dOut 3 (maxPool2Out (conv3dOut 5 s))))

/-- `self.S0 = ((S-4)//2 - 2)//2 - 2`: the spatial size the source expects
after `self.localization`. -/
def S0 : ℕ := ((S - 4) / 2 - 2) / 2 - 2

/-- A 5-D tensor shape `(B, C, D, H, W)`. -/
structure Shape5 where
  B : ℕ
  C : ℕ
  D : ℕ
  H : ℕ
  W : ℕ

def numel (sh : Shape5) : ℕ := sh.B * sh.C * sh.D * sh.H * sh.W

/-- Shape of `self.localization(x)`. -/
def localizationShape (sh : Shape5) : Shape5 :=
  ⟨sh.B, loc_C3, localizationSpatial sh.D, localizationSpatial sh.H,
    localizationSpatial sh.W⟩

/-- The assertion in `AffineNet.forward`:
`len(set(xs.shape[2:])) == 1 and xs.shape[2] == self.S0`. -/
def assertHolds (sh : Shape5) : Prop := sh.D = sh.H ∧ sh.H = sh.W ∧ sh.D = S0

/-- `xs.view(-1, loc_C3 * S0**3)`: torch infers the leading dimension as the
element count divided by the named feature count. -/
def flattenShape (sh : Shape5) : ℕ × ℕ :=
  (numel sh / (loc_C3 * S0^3), loc_C3 * S0^3)

/-- Output shape of `fc_loc = Linear(loc_C3 * S0**3, 4*3)`. -/
def fc_loc_outShape (sh : ℕ × ℕ) : ℕ × ℕ := (sh.1, 4*3)

/-- `theta.view(-1, 3, 4)`. -/
def thetaViewShape (sh : ℕ × ℕ) : ℕ × ℕ × ℕ := (sh.1 * sh.2 / (3*4), 3, 4)

/-- The shape of the `theta` returned by `AffineNet.forward` on a
`(B, 2, S, S, S)` input, following the source's layer chain. -/
def forwardThetaShape (B : ℕ) : ℕ × ℕ × ℕ :=
  thetaViewShape (fc_loc_outShape (flattenShape (localizationShape ⟨B, 2, S, S, S⟩)))

/-- C9: on every `(B, 2, 64, 64, 64)` input the three spatial dimensions of
the localization output are equal to `S0 = ((S-4)//2 - 2)//2 - 2 = 12`, so
the assert in `AffineNet.forward` holds, and flattening to
`loc_C3 * S0^3` features is exact with inferred batch dimension `B`. -/
theorem C9_assert_holds (B : ℕ) :
    assertHolds (localizationShape ⟨B, 2, S, S, S⟩)
      ∧ localizationSpatial S = S0
      ∧ S0 = 12
      ∧ loc_C3 * S0^3 ∣ numel (localizationShape ⟨B, 2, S, S, S⟩)
      ∧ numel (localizationShape ⟨B, 2, S, S, S⟩) / (loc_C3 * S0^3) = B := by
  refine ⟨⟨rfl, rfl, ?_⟩, ?_, ?_, ⟨B, ?_⟩, ?_⟩
  · show localizationSpatial S = S0
    norm_num [localizationSpatial, conv3dOut, maxPool2Out, S0, S]
  · norm_num [localizationSpatial, conv3dOut, maxPool2Out, S0, S]
  · norm_num [S0, S]
  · show numel _ = loc_C3 * S0^3 * B
    norm_num [numel, localizationShape, localizationSpatial, conv3dOut,
      maxPool2Out, loc_C3, S0, S]
    ring
  · show numel _ / (loc_C3 * S0^3) = B
    rw [show numel (localizationShape ⟨B, 2, S, S, S⟩) = B * (loc_C3 * S0^3) by
      norm_num [numel, localizationShape, localizationSpatial, conv3dOut,
        maxPool2Out, loc_C3, S0, S]; ring]
    exact Nat.mul_div_cancel B (by norm_num [loc_C3, S0, S])

/-- C5: for every batch size `B`, the `theta` produced by
`AffineNet.forward` on a `(B, 2, 64, 64, 64)` input has shape `(B, 3, 4)`,
and the final linear regressor emits exactly `4*3 = 12` numbers per sample. -/
theorem C5_theta_shape (B : ℕ) :
    forwardThetaShape B = (B, 3, 4)
      ∧ fc_loc_outShape (flattenShape (localizationShape ⟨B, 2, S, S, S⟩))
          = (B, 12) := by
  have hflat : flattenShape (localizationShape ⟨B, 2, S, S, S⟩)
      = (B, loc_C3 * S0^3) := by
    rw [flattenShape]
    rw [show numel (localizationShape ⟨B, 2, S, S, S⟩) = B * (loc_C3 * S0^3) by
      norm_num [numel, localizationShape, localizationSpatial, conv3dOut,
        maxPool2Out, loc_C3, S0, S]; ring]
    rw [Nat.mul_div_cancel B (by norm_num [loc_C3, S0, S])]
  constructor
  · rw [forwardThetaShape, hflat]
    show ((B * (4*3)) / (3*4), 3, 4) = (B, 3, 4)
    rw [show B * (4*3) = B * (3*4) by ring,
      Nat.mul_div_cancel B (by norm_num)]
  · rw [hflat]
    rfl

/-- Number of features after flattening the localization output,
`loc_C3 * S0**3`. -/
def nFeat : ℕ := loc_C3 * S0^3

/-- The sampling grid produced by `torch.nn.functional.affine_grid`: one
sampling coordinate per output voxel. -/
def Grid : Type := Fin S → Fin S → Fin S → ℚ × ℚ × ℚ

/-- A linear layer `x ↦ W x + b` with 12 outputs (`fc_loc`). -/
def linearApply (W : Fin 12 → Fin nFeat → ℚ) (b : Fin 12 → ℚ)
    (x : Fin nFeat → ℚ) : Fin 12 → ℚ :=
  fun j => (∑ k, W j k * x k) + b j

/-- `theta.view(-1, 3, 4)` per sample: row-major reshape of 12 numbers into
a 3×4 matrix. -/
def reshape34 (v : Fin 12 → ℚ) : M34 :=
  Matrix.of fun i j =>
    v ⟨4 * i.val + j.val, by have h1 := i.isLt; have h2 := j.isLt; omega⟩

/-- `self.fc_loc[-1].weight.data.zero_()`: all-zero weights. -/
def fc_loc_init_weight : Fin 12 → Fin nFeat → ℚ := fun _ _ => 0

/-- `self.fc_loc[-1].bias.data.copy_(torch.tensor([1,0,0,0, 0,1,0,0, 0,0,1,0]))`. -/
def fc_loc_init_bias : Fin 12 → ℚ := ![1, 0, 0, 0, 0, 1, 0, 0, 0, 0, 1, 0]

/-- The 3×4 identity affine matrix. -/
def identityAffine : M34 := !![1, 0, 0, 0; 0, 1, 0, 0; 0, 0, 1, 0]

/-- `AffineNet.forward`, parameterized by the function `loc` computed by the
randomly initialised localization stack, the `fc_loc` parameters `W`, `b`,
and the torch primitives `affine_grid` / `grid_sample`: it regresses
`theta = fc_loc(flatten(localization(x))).view(-1,3,4)`, builds
`grid = affine_grid(theta, x.size())`, and returns
`(theta, grid_sample(x[:, [1]], grid))`. -/
def AffineNet.forward
    (loc : (Fin 2 → Vol) → (Fin nFeat → ℚ))
    (W : Fin 12 → Fin nFeat → ℚ) (b : Fin 12 → ℚ)
    (affine_grid : M34 → Grid)
    (grid_sample : Vol → Grid → Vol)
    (x : Fin 2 → Vol) : M34 × Vol :=
  let xs := loc x
  let theta := reshape34 (linearApply W b xs)
  let grid := affine_grid theta
  let warped := grid_sample (x 1) grid
  (theta, warped)

/-- The spec's description of the regression step: the transform parameters
are regressed from the image content (the two concatenated channels). -/
def regressTheta (loc : (Fin 2 → Vol) → (Fin nFeat → ℚ))
    (W : Fin 12 → Fin nFeat → ℚ) (b : Fin 12 → ℚ) (x : Fin 2 → Vol) : M34 :=
  reshape34 (linearApply W b (loc x))

/-- C6: `AffineNet.forward` follows the spatial-transformer order: the
returned `theta` is regressed from the image content alone, and the warped
output of the same call is obtained by sampling through the grid built from
exactly that `theta`. -/
theorem C6_forward_is_stn_order
    (loc : (Fin 2 → Vol) → (Fin nFeat → ℚ))
    (W : Fin 12 → Fin nFeat → ℚ) (b : Fin 12 → ℚ)
    (ag : M34 → Grid) (gs : Vol → Grid → Vol) (x : Fin 2 → Vol) :
    (AffineNet.forward loc W b ag gs x).1 = regressTheta loc W b x
      ∧ (AffineNet.forward loc W b ag gs x).2
          = gs (x 1) (ag ((AffineNet.forward loc W b ag gs x).1)) :=
  ⟨rfl, rfl⟩

/-- `ConcatItemsD(keys=['fixed','moving'], name='fm', dim=0)`: the fixed
image becomes channel 0 and the moving image channel 1. -/
def concatFM (fixed moving : Vol) : Fin 2 → Vol := ![fixed, moving]

/-- C7: the warped volume is produced by resampling only the moving channel
(channel 1 of the fixed-then-moving concatenation); the fixed channel enters
the output only through the regressed `theta`, and is never itself passed to
`grid_sample`. -/
theorem C7_only_moving_resampled
    (loc : (Fin 2 → Vol) → (Fin nFeat → ℚ))
    (W : Fin 12 → Fin nFeat → ℚ) (b : Fin 12 → ℚ)
    (ag : M34 → Grid) (gs : Vol → Grid → Vol) (fixed fixed' moving : Vol) :
    (AffineNet.forward loc W b ag gs (concatFM fixed moving)).2
        = gs moving (ag (regressTheta loc W b (concatFM fixed moving)))
      ∧ concatFM fixed moving 0 = fixed
      ∧ concatFM fixed moving 1 = moving
      ∧ (regressTheta loc W b (concatFM fixed moving)
            = regressTheta loc W b (concatFM fixed' moving) →
          (AffineNet.forward loc W b ag gs (concatFM fixed moving)).2
            = (AffineNet.forward loc W b ag gs (concatFM fixed' moving)).2) := by
  refine ⟨rfl, rfl, rfl, ?_⟩
  intro h
  show gs (concatFM fixed moving 1) (ag (regressTheta loc W b (concatFM fixed moving)))
      = gs (concatFM fixed' moving 1) (ag (regressTheta loc W b (concatFM fixed' moving)))
  rw [h]
  rfl

/-- Witness for C7 with concrete functions and volumes. -/
theorem C7_witness :
    (AffineNet.forward (fun _ _ => 0) (fun _ _ => 0) (fun _ => 0)
          (fun _ _ _ _ => (0, 0, 0)) (fun v _ => v)
          (concatFM (fun _ _ _ => 0) (fun _ _ _ => 1))).2
        = (fun v _ => v : Vol → Grid → Vol) (fun _ _ _ => 1)
            ((fun _ _ _ _ => (0, 0, 0) : M34 → Grid)
              (regressTheta (fun _ _ => 0) (fun _ _ => 0) (fun _ => 0)
                (concatFM (fun _ _ _ => 0) (fun _ _ _ => 1))))
      ∧ concatFM (fun _ _ _ => (0:ℚ)) (fun _ _ _ => 1) 0 = (fun _ _ _ => 0)
      ∧ concatFM (fun _ _ _ => (0:ℚ)) (fun _ _ _ => 1) 1 = (fun _ _ _ => 1)
      ∧ (regressTheta (fun _ _ => 0) (fun _ _ => 0) (fun _ => 0)
            (concatFM (fun _ _ _ => 0) (fun _ _ _ => 1))
          = regressTheta (fun _ _ => 0) (fun _ _ => 0) (fun _ => 0)
              (concatFM (fun _ _ _ => 2) (fun _ _ _ => 1)) →
          (AffineNet.forward (fun _ _ => 0) (fun _ _ => 0) (fun _ => 0)
              (fun _ _ _ _ => (0, 0, 0)) (fun v _ => v)
              (concatFM (fun _ _ _ => 0) (fun _ _ _ => 1))).2
            = (AffineNet.forward (fun _ _ => 0) (fun _ _ => 0) (fun _ => 0)
                (fun _ _ _ _ => (0, 0, 0)) (fun v _ => v)
                (concatFM (fun _ _ _ => 2) (fun _ _ _ => 1))).2) :=
  C7_only_moving_resampled (fun _ _ => 0) (fun _ _ => 0) (fun _ => 0)
    (fun _ _ _ _ => (0, 0, 0)) (fun v _ => v)
    (fun _ _ _ => 0) (fun _ _ _ => 2) (fun _ _ _ => 1)

/-- C8: immediately after construction (weights of `fc_loc` zeroed, bias set
to the flattened 3×4 identity) and before any optimizer step,
`AffineNet.forward` returns the identity transform for every input, whatever
the localization stack computes. -/
theorem C8_identity_at_init
    (loc : (Fin 2 → Vol) → (Fin nFeat → ℚ))
    (ag : M34 → Grid) (gs : Vol → Grid → Vol) (x : Fin 2 → Vol) :
    (AffineNet.forward loc fc_loc_init_weight fc_loc_init_bias ag gs x).1
      = identityAffine := by
  show reshape34 (linearApply fc_loc_init_weight fc_loc_init_bias (loc x))
      = identityAffine
  have hb : linearApply fc_loc_init_weight fc_loc_init_bias (loc x)
      = fc_loc_init_bias := by
    funext j
    simp [linearApply, fc_loc_init_weight]
  rw [hb]
  ext i j
  fin_cases i <;> fin_cases j <;> rfl

/-- A file system, mapping a path to the bytes stored there, if any. -/
def FileSystem : Type := String → Option (List ℕ)

/-- `save_path = f'model_{run_id}.pth'`. -/
def save_path (run_id : String) : String := "model_" ++ run_id ++ ".pth"

/-- The model-saving cell:
`if os.path.exists(save_path): raise Exception("change run_id before saving")`
and otherwise `torch.save(model.state_dict(), save_path)`; the result is the
updated file system, or the exception message. -/
def saveModelCell (fs : FileSystem) (run_id : String) (state_dict : List ℕ) :
    Except String FileSystem :=
  if (fs (save_path run_id)).isSome then
    Except.error "change run_id before saving"
  else
    Except.ok (fun p => if p = save_path run_id then some state_dict else fs p)

/-- C10: the saving step never overwrites an existing checkpoint: if
`model_{run_id}.pth` already exists, the cell raises before `torch.save` is
reached (it cannot return an updated file system), so the existing contents
stay untouched. -/
theorem C10_save_never_overwrites (fs : FileSystem) (run_id : String)
    (state_dict c : List ℕ) (h : fs (save_path run_id) = some c) :
    saveModelCell fs run_id state_dict
        = Except.error "change run_id before saving"
      ∧ (∀ fs' : FileSystem, saveModelCell fs run_id state_dict ≠ Except.ok fs') := by
  have hsome : (fs (save_path run_id)).isSome := by rw [h]; rfl
  constructor
  · rw [saveModelCell, if_pos hsome]
  · intro fs' hok
    rw [saveModelCell, if_pos hsome] at hok
    exact Except.noConfusion hok

/-- A file system holding only an existing checkpoint `model_002.pth`. -/
def fsWith002 : FileSystem :=
  fun p => if p = "model_002.pth" then some [7] else none

/-- Witness for C10 on a file system where `model_002.pth` exists. -/
theorem C10_witness :
    saveModelCell fsWith002 "002" [3]
        = Except.error "change run_id before saving"
      ∧ (∀ fs' : FileSystem, saveModelCell fsWith002 "002" [3] ≠ Except.ok fs') :=
  C10_save_never_overwrites fsWith002 "002" [3] [7] rfl
